import Mathlib

/-
Verification of the cinema library (cinema.go): a command-line-argument
builder for ffmpeg.  The Go code is shallowly embedded below.

Modelling conventions:
* Go `time.Duration` (int64 nanoseconds) and Go `int` are modelled as `Int`;
  none of the verified operations perform arithmetic that can overflow an
  int64 on the values in scope (the setters only compare and copy, and the
  single subtraction `v.end - v.start` stays within `[0, duration]`).
* ffprobe's parsed JSON report is modelled by `Description`; the float64
  duration returned by ffprobe is represented by its already-rounded
  `time.Duration` value (`time.Duration(secs*float64(time.Second) + 0.5)`),
  since the claims under study do not depend on the rounding step itself.
* File-system and subprocess effects (os.Create/Remove, cmd.Run) are modelled
  by explicit state passing (`FS`) plus boolean oracles for the two failure
  points; a Go runtime panic (out-of-range index) is modelled as `none`.
* Go's truncated integer division/remainder are `Int.tdiv` / `Int.tmod`.
-/

namespace Cinema

/-- Splits a character list at every `/` (the component split underlying the
Go `path/filepath` helpers below; same contract as strings.Split on `/`). -/
def splitSlash : List Char → List (List Char)
  | [] => [[]]
  | c :: rest =>
    let r := splitSlash rest
    if c = '/' then [] :: r
    else (c :: r.headD []) :: r.tail

/-- The `/`-separated components of a path. -/
def splitPath (s : String) : List String :=
  (splitSlash s.data).map String.mk

/-- Models Go `path/filepath.Clean` on slash-separated (Unix) paths:
drop empty and `.` components, resolve `..`, keep rootedness; empty
input cleans to `.`. -/
def clean (path : String) : String :=
  if path = "" then "." else
  let rooted := path.data.head? = some '/'
  let out := (splitPath path).foldl (fun acc c =>
    if c = "" || c = "." then acc
    else if c = ".." then
      match acc.getLast? with
      | some l => if l = ".." then acc ++ [c] else acc.dropLast
      | none => if rooted then [] else [c]
    else acc ++ [c]) []
  if rooted then "/" ++ String.intercalate "/" out
  else if out.isEmpty then "." else String.intercalate "/" out

/-- Models Go `filepath.Dir`: the part of the path up to and including the
final separator, cleaned; `.` when the path has no separator. -/
def dir (path : String) : String :=
  let comps := splitPath path
  if comps.length ≤ 1 then clean ""
  else clean (String.intercalate "/" comps.dropLast ++ "/")

/-- Models Go `filepath.Base`: the last element of the path after stripping
trailing separators; `.` for the empty path, `/` for all-separator paths. -/
def base (path : String) : String :=
  if path = "" then "." else
  let stripped := String.mk (path.data.reverse.dropWhile (· = '/')).reverse
  if stripped = "" then "/"
  else (splitPath stripped).getLastD stripped

/-- Models Go `filepath.Join` on two elements as used by the source:
join with a separator and clean (empty elements are skipped). -/
def join (a b : String) : String :=
  if a = "" then (if b = "" then "" else clean b)
  else clean (a ++ "/" ++ b)

/-- The `Video` struct of cinema.go.  `start`, `end`, `duration` are
`time.Duration` values (nanoseconds). -/
structure Video where
  filepath : String
  width : Int
  height : Int
  fps : Int
  bitrate : Int
  start : Int
  «end» : Int
  duration : Int
  filters : List String
  additionalArgs : List String
deriving DecidableEq

/-- One video stream of the parsed ffprobe report (width, height, optional
`rotate` tag in degrees). -/
structure Stream where
  width : Int
  height : Int
  rotation : Option Int
deriving DecidableEq

/-- The parsed ffprobe report used by `Load`: the stream list plus the
format-level duration (already converted to nanoseconds, see the header
comment) and bit rate. -/
structure Description where
  streams : List Stream
  duration : Int
  bitrate : Int
deriving DecidableEq

/-- The `dsIndex` loop of `Load`: the first stream whose width and height are
both non-zero, defaulting to index 0 (degenerate fallback); `none` only when
the stream list is empty. -/
def selectStream (streams : List Stream) : Option Stream :=
  match streams.find? (fun v => v.width != 0 && v.height != 0) with
  | some s => some s
  | none => streams.head?

/-- `Load` after the probe step: builds the initial `Video` from the parsed
report.  `none` models the error return on an empty stream list (the earlier
error paths — missing ffprobe, unreadable file, probe failure, malformed
JSON/number — happen before the `Description` exists and are outside this
model).  A rotation tag whose `flipCount = rotation / 90` (Go truncated
division) is odd swaps width and height. -/
def load (path : String) (desc : Description) : Option Video :=
  if desc.streams.isEmpty then none
  else
    match selectStream desc.streams with
    | none => none
    | some s =>
      let wh : Int × Int :=
        match s.rotation with
        | none => (s.width, s.height)
        | some rotation =>
          let flipCount := Int.tdiv rotation 90
          if Int.tmod flipCount 2 != 0 then (s.height, s.width)
          else (s.width, s.height)
      some { filepath := path, width := wh.1, height := wh.2, fps := 30,
             bitrate := desc.bitrate, start := 0, «end» := desc.duration,
             duration := desc.duration, filters := [], additionalArgs := [] }

/-- `clampToDuration`: clamp `t` below by 0, then above by `v.duration`. -/
def Video.clampToDuration (v : Video) (t : Int) : Int :=
  let t1 := if t < 0 then 0 else t
  if t1 > v.duration then v.duration else t1

/-- `SetStart`: clamp and assign `start`; if it passed `end`, pull `end` up. -/
def Video.setStart (v : Video) (start : Int) : Video :=
  let v1 := { v with start := v.clampToDuration start }
  if v1.start > v1.«end» then { v1 with «end» := v1.start } else v1

/-- `SetEnd`: clamp and assign `end`; if it dropped below `start`, pull
`start` down. -/
def Video.setEnd (v : Video) («end» : Int) : Video :=
  let v1 := { v with «end» := v.clampToDuration «end» }
  if v1.«end» < v1.start then { v1 with start := v1.«end» } else v1

/-- `Trim`: apply `SetStart` then `SetEnd`, but only when `start ≤ end`. -/
def Video.trim (v : Video) (start «end» : Int) : Video :=
  if start ≤ «end» then (v.setStart start).setEnd «end» else v

/-- `SetFPS`: overwrite the frame rate unconditionally. -/
def Video.setFPS (v : Video) (fps : Int) : Video :=
  { v with fps := fps }

/-- `SetBitrate`: overwrite the bit rate unconditionally. -/
def Video.setBitrate (v : Video) (bitrate : Int) : Video :=
  { v with bitrate := bitrate }

/-- `SetSize`: overwrite width/height and append a `scale=w:h` filter. -/
def Video.setSize (v : Video) (width height : Int) : Video :=
  { v with width := width, height := height,
           filters := v.filters ++ ["scale=" ++ toString width ++ ":" ++ toString height] }

/-- `Crop`: overwrite width/height and append a `crop=w:h:x:y` filter. -/
def Video.crop (v : Video) (x y width height : Int) : Video :=
  { v with width := width, height := height,
           filters := v.filters ++
             ["crop=" ++ toString width ++ ":" ++ toString height ++ ":" ++
              toString x ++ ":" ++ toString y] }

/-- `Mute`: append the `-an` token to the additional arguments. -/
def Video.mute (v : Video) : Video :=
  { v with additionalArgs := v.additionalArgs ++ ["-an"] }

/-- Models `strconv.FormatFloat(d.Seconds(), 'f', -1, 64)` for a duration of
`d` nanoseconds: the exact decimal rendering of `d / 10^9` with trailing
zeros trimmed (Go prints the shortest decimal that round-trips through the
float64 `d.Seconds()`; the two coincide on the values in scope). -/
def formatSeconds (d : Int) : String :=
  let n := d.natAbs
  let whole := n / 1000000000
  let frac := n % 1000000000
  let fracDigits :=
    let ds := toString frac
    let padded := String.mk (List.replicate (9 - ds.length) '0') ++ ds
    String.mk (padded.data.reverse.dropWhile (· = '0')).reverse
  let mag := toString whole ++ (if fracDigits = "" then "" else "." ++ fracDigits)
  if d < 0 then "-" ++ mag else mag

/-- `Video.CommandLine`: compile the accumulated state into the ffmpeg
argument vector. -/
def Video.commandLine (v : Video) (output : String) : List String :=
  let filters :=
    (if v.filters.length > 0 then String.intercalate "," v.filters ++ "," else "")
      ++ "setsar=1,fps=fps=" ++ toString v.fps
  let cmdline := ["ffmpeg", "-y",
    "-i", v.filepath,
    "-ss", formatSeconds v.start,
    "-t", formatSeconds (v.«end» - v.start),
    "-vb", toString v.bitrate]
  let cmdline := cmdline ++ v.additionalArgs
  let cmdline := cmdline ++ ["-vf", filters, "-strict", "-2"]
  cmdline ++ [output]

/-- The command vector as section 4.3 of the specification describes it,
step by step (spec-side definition for the refinement claim about
`CommandLine`): tool name, overwrite flag, input, seek-start, duration,
bit rate, extra args in append order, one combined `-vf` argument joining
the fragments and the mandatory trailing setsar/fps fragment with commas
(the trailing fragment always last), strictness flags, output. -/
def Video.commandLineSpec (v : Video) (output : String) : List String :=
  ["ffmpeg", "-y"]
    ++ ["-i", v.filepath]
    ++ ["-ss", formatSeconds v.start]
    ++ ["-t", formatSeconds (v.«end» - v.start)]
    ++ ["-vb", toString v.bitrate]
    ++ v.additionalArgs
    ++ ["-vf", String.intercalate ","
          (v.filters ++ ["setsar=1,fps=fps=" ++ toString v.fps])]
    ++ ["-strict", "-2"]
    ++ [output]

/-- The edit calls a caller can issue on a `Video` after `Load`. -/
inductive Edit where
  | setStart (t : Int)
  | setEnd (t : Int)
  | trim (start «end» : Int)
  | setFPS (fps : Int)
  | setBitrate (bitrate : Int)
  | setSize (width height : Int)
  | crop (x y width height : Int)
  | mute

/-- Dispatch one edit call to the corresponding operation. -/
def applyEdit (v : Video) : Edit → Video
  | .setStart t => v.setStart t
  | .setEnd t => v.setEnd t
  | .trim s e => v.trim s e
  | .setFPS f => v.setFPS f
  | .setBitrate b => v.setBitrate b
  | .setSize w h => v.setSize w h
  | .crop x y w h => v.crop x y w h
  | .mute => v.mute

/-- The trim-bounds invariant stated by the specification. -/
def Video.invariant (v : Video) : Prop :=
  0 ≤ v.start ∧ v.start ≤ v.«end» ∧ v.«end» ≤ v.duration

/-- The `Clip` struct of cinema.go: the member paths and the cached path of
the concatenation manifest. -/
structure Clip where
  videosPath : List String
  concatListCache : String
deriving DecidableEq

/-- The error returns of `NewClip`. -/
inductive LoadError where
  | ffprobeNotFound
  | fileNotFound (path : String)
deriving DecidableEq

/-- `NewClip`.  `ffprobeFound` models `exec.LookPath("ffprobe")` succeeding
and `statOk` models `os.Stat` on a member path.  After these checks the code
reads `videoPath[0]` unconditionally to derive the manifest directory; on an
empty list that index is out of range, a runtime panic, modelled as `none`. -/
def newClip (ffprobeFound : Bool) (statOk : String → Bool)
    (videoPath : List String) : Option (Except LoadError Clip) :=
  if !ffprobeFound then some (.error .ffprobeNotFound)
  else
    match videoPath.find? (fun p => !statOk p) with
    | some p => some (.error (.fileNotFound p))
    | none =>
      match videoPath with
      | [] => none
      | p0 :: _ =>
        some (.ok { videosPath := videoPath,
                    concatListCache := join (dir p0) "concat.txt" })

/-- `Clip.CommandLine`: the concat-demuxer invocation.  It reads
`c.videosPath[0]` to place the output next to the first member; an empty
member list panics (`none`). -/
def Clip.commandLine (c : Clip) (output : String) : Option (List String) :=
  match c.videosPath with
  | [] => none
  | p0 :: _ =>
    some (["ffmpeg", "-y", "-f", "concat", "-i", c.concatListCache,
           "-c", "copy"]
      ++ ["-fflags", "+genpts", join (dir p0) output])

/-- The file-system state the concatenation code touches: the manifest file
(its path and its lines), when present.  Only this one file is tracked. -/
structure FS where
  manifest : Option (String × List String)
deriving DecidableEq

/-- `saveConcatenateList`: create `c.concatListCache` (truncating any
previous content) and write one `file '<basename>'` line per member, in list
order.  `createFails` models `os.Create` failing, in which case the state is
unchanged and the error is returned. -/
def Clip.saveConcatenateList (c : Clip) (createFails : Bool) (_fs : FS) :
    Except Unit FS :=
  if createFails then .error ()
  else .ok { manifest := some (c.concatListCache,
    c.videosPath.map (fun video => "file \x27" ++ base video ++ "\x27")) }

/-- `deleteConcatenateList`: `os.Remove(c.concatListCache)`, an error when
the file is absent. -/
def Clip.deleteConcatenateList (c : Clip) (fs : FS) : Except Unit FS :=
  match fs.manifest with
  | some pair =>
    if pair.1 = c.concatListCache then .ok { manifest := none }
    else .error ()
  | none => .error ()

/-- The error return of `ConcatenateWithStreams`. -/
inductive ConcatError where
  | executionFailed
deriving DecidableEq

/-- `ConcatenateWithStreams`.  The result of `c.saveConcatenateList()` is
discarded (the statement ignores the returned error); `deleteConcatenateList`
runs deferred on every path, its error also discarded; `execFails` models
`cmd.Run` returning a non-zero exit, the only failure surfaced to the
caller.  The empty member list panics inside `CommandLine` (`none`). -/
def Clip.concatenateWithStreams (c : Clip) (output : String)
    (createFails execFails : Bool) (fs : FS) :
    Option (Option ConcatError × FS) :=
  let fs1 := match c.saveConcatenateList createFails fs with
    | .ok fsSaved => fsSaved
    | .error _ => fs
  match c.commandLine output with
  | none => none
  | some _line =>
    let result := if execFails then some ConcatError.executionFailed else none
    let fs2 := match c.deleteConcatenateList fs1 with
      | .ok fsDeleted => fsDeleted
      | .error _ => fs1
    some (result, fs2)

/-- A probe report for a plain 60-second 1920x1080 file (concrete input for
witnesses). -/
def sampleDesc : Description :=
  { streams := [{ width := 1920, height := 1080, rotation := none }],
    duration := 60000000000, bitrate := 128000 }

/-- The video `load` constructs from `sampleDesc`. -/
def sampleVideo : Video :=
  { filepath := "in.mp4", width := 1920, height := 1080, fps := 30,
    bitrate := 128000, start := 0, «end» := 60000000000,
    duration := 60000000000, filters := [], additionalArgs := [] }

/-- A video whose bitrate field is 0 (concrete input for the bitrate
counterexample). -/
def zeroBitrateVideo : Video :=
  { filepath := "in.mp4", width := 1920, height := 1080, fps := 30,
    bitrate := 0, start := 0, «end» := 60000000000,
    duration := 60000000000, filters := [], additionalArgs := [] }

/-- A probe report carrying a 90-degree rotation tag on a 1080x1920 stream. -/
def rotatedDesc : Description :=
  { streams := [{ width := 1080, height := 1920, rotation := some 90 }],
    duration := 60000000000, bitrate := 128000 }

/-- The video `load` constructs from `rotatedDesc` (dimensions swapped). -/
def rotatedVideo : Video :=
  { filepath := "in.mp4", width := 1920, height := 1080, fps := 30,
    bitrate := 128000, start := 0, «end» := 60000000000,
    duration := 60000000000, filters := [], additionalArgs := [] }

/-- A one-member clip (concrete input for the concatenation theorems). -/
def sampleClip : Clip :=
  { videosPath := ["/a/b.mp4"], concatListCache := "/a/concat.txt" }

/-- A two-member clip as `newClip` builds it. -/
def twoMemberClip : Clip :=
  { videosPath := ["/a/b.mp4", "/a/c.mp4"],
    concatListCache := join (dir "/a/b.mp4") "concat.txt" }

/-- A clip whose first member lives in `/a/b` (concrete input for the output
path counterexample). -/
def nestedClip : Clip :=
  { videosPath := ["/a/b/c.mp4"], concatListCache := "/a/b/concat.txt" }

/-- The file-system state with no manifest present. -/
def emptyFS : FS := { manifest := none }

/-- Helper: `clampToDuration` lands in `[0, duration]` when the duration is
non-negative. -/
theorem clampToDuration_bounds (v : Video) (t : Int) (h : 0 ≤ v.duration) :
    0 ≤ v.clampToDuration t ∧ v.clampToDuration t ≤ v.duration := by
  unfold Video.clampToDuration
  dsimp only
  split_ifs <;> omega

/-- Helper: `setStart` preserves the trim-bounds invariant. -/
theorem setStart_invariant (v : Video) (t : Int) (h : v.invariant) :
    (v.setStart t).invariant := by
  obtain ⟨h1, h2, h3⟩ := h
  have hc := clampToDuration_bounds v t (by omega)
  unfold Video.setStart Video.invariant
  dsimp only
  split_ifs with hlt <;> dsimp only <;> omega

/-- Helper: `setEnd` preserves the trim-bounds invariant. -/
theorem setEnd_invariant (v : Video) (t : Int) (h : v.invariant) :
    (v.setEnd t).invariant := by
  obtain ⟨h1, h2, h3⟩ := h
  have hc := clampToDuration_bounds v t (by omega)
  unfold Video.setEnd Video.invariant
  dsimp only
  split_ifs with hlt <;> dsimp only <;> omega

/-- Helper: every single edit call preserves the trim-bounds invariant. -/
theorem applyEdit_invariant (v : Video) (e : Edit) (h : v.invariant) :
    (applyEdit v e).invariant := by
  cases e with
  | setStart t => exact setStart_invariant v t h
  | setEnd t => exact setEnd_invariant v t h
  | trim s e =>
    simp only [applyEdit, Video.trim]
    split_ifs with hle
    · exact setEnd_invariant _ e (setStart_invariant v s h)
    · exact h
  | setFPS f => exact h
  | setBitrate b => exact h
  | setSize w hh => exact h
  | crop x y w hh => exact h
  | mute => exact h

/-- Helper: a video built by `load` from a report with non-negative duration
satisfies the trim-bounds invariant (start = 0, end = duration). -/
theorem load_initial_invariant (path : String) (desc : Description) (v : Video)
    (hdur : 0 ≤ desc.duration) (hload : load path desc = some v) :
    v.invariant := by
  unfold load at hload
  split at hload
  · exact absurd hload (by simp)
  · split at hload
    · exact absurd hload (by simp)
    · simp only [Option.some.injEq] at hload
      subst hload
      exact ⟨le_refl 0, hdur, le_refl _⟩

/-- Helper: the invariant is preserved along any fold of edit calls. -/
theorem foldl_invariant (edits : List Edit) : ∀ v : Video, v.invariant →
    (edits.foldl applyEdit v).invariant := by
  induction edits with
  | nil => intro v hv; exact hv
  | cons e t ih => intro v hv; exact ih _ (applyEdit_invariant v e hv)

/-- Helper: unfolding equation of `String.intercalate.go` on `[]`. -/
theorem go_nil (a s : String) : String.intercalate.go a s [] = a := by
  simp [String.intercalate.go]

/-- Helper: unfolding equation of `String.intercalate.go` on a cons. -/
theorem go_cons (a s b : String) (t : List String) :
    String.intercalate.go a s (b :: t) =
      String.intercalate.go (a ++ s ++ b) s t := by
  simp [String.intercalate.go]

/-- Helper: `String.intercalate.go` distributes over appending one final
element. -/
theorem go_append_singleton (s x : String) (t : List String) : ∀ a,
    String.intercalate.go a s (t ++ [x]) =
      String.intercalate.go a s t ++ s ++ x := by
  induction t with
  | nil => intro a; simp [go_nil, go_cons]
  | cons b t ih => intro a; rw [List.cons_append, go_cons, go_cons, ih]

/-- Helper: joining `l ++ [x]` with commas equals the code's formulation
(join `l`, add a trailing comma only when `l` is non-empty, append `x`). -/
theorem intercalate_append_trailing (l : List String) (x : String) :
    String.intercalate "," (l ++ [x]) =
      (if l.length > 0 then String.intercalate "," l ++ "," else "") ++ x := by
  cases l with
  | nil => simp [String.intercalate, go_nil]
  | cons a t =>
    simp only [List.cons_append, String.intercalate, List.length_cons,
      gt_iff_lt, Nat.succ_pos, if_pos, go_append_singleton]

/-- C1: for every Video constructed by Load (from a probe report with
non-negative duration, the documented assumption `seconds will be >= 0` of
the rounding step) and every finite sequence of edit calls (SetStart, SetEnd,
Trim, SetFPS, SetBitrate, SetSize, Crop, Mute) with arbitrary arguments, the
invariant `0 ≤ start ≤ end ≤ duration` holds after each call (i.e. after
every prefix of the sequence, each prefix being itself such a fold). -/
theorem load_edit_sequence_invariant (path : String) (desc : Description)
    (v : Video) (hdur : 0 ≤ desc.duration)
    (hload : load path desc = some v) (edits : List Edit) :
    (edits.foldl applyEdit v).invariant :=
  foldl_invariant edits v (load_initial_invariant path desc v hdur hload)

/-- Witness for C1 at a concrete load and edit sequence. -/
theorem load_edit_sequence_invariant_witness :
    (([Edit.setStart 70000000000, Edit.trim 10000000000 20000000000,
       Edit.setSize 400 300, Edit.mute].foldl applyEdit
         sampleVideo)).invariant :=
  load_edit_sequence_invariant "in.mp4" sampleDesc sampleVideo (by decide)
    (by decide) _

/-- C2: for every Video state, CommandLine(output) is exactly the vector the
spec enumerates: tool name, overwrite flag, input path, seek-start, duration,
video bitrate, all extraArgs in append order, one combined `-vf` argument
joining the filter fragments in append order with commas followed by the
trailing setsar/fps fragment (always last, also when there are no prior
fragments), the strictness flags, then the output path. -/
theorem commandLine_matches_spec (v : Video) (output : String) :
    v.commandLine output = v.commandLineSpec output := by
  unfold Video.commandLine Video.commandLineSpec
  dsimp only
  rw [intercalate_append_trailing, String.append_assoc]
  simp

/-- Counterexample to C3: a Video whose bitrate field is 0 still gets a
`-vb` argument in its compiled command vector (the claim says none is
emitted). -/
theorem bitrate_zero_counterexample :
    zeroBitrateVideo.bitrate = 0 ∧
    "-vb" ∈ zeroBitrateVideo.commandLine "out.mp4" := by
  constructor
  · rfl
  · decide

/-- C3 amended: when the bitrate field is 0 the compiled vector still
contains the video-bitrate argument — the first ten entries always end with
`-vb` followed by the decimal bitrate, here "0"; bitrate 0 is passed like
any other value, not suppressed. -/
theorem commandLine_always_passes_bitrate (v : Video) (output : String)
    (h : v.bitrate = 0) :
    (v.commandLine output).take 10 =
      ["ffmpeg", "-y", "-i", v.filepath, "-ss", formatSeconds v.start,
       "-t", formatSeconds (v.«end» - v.start), "-vb", "0"] := by
  unfold Video.commandLine
  dsimp only
  rw [h]
  rfl

/-- Witness for the amended C3 at a concrete zero-bitrate video. -/
theorem commandLine_always_passes_bitrate_witness :
    (zeroBitrateVideo.commandLine "out.mp4").take 10 =
      ["ffmpeg", "-y", "-i", zeroBitrateVideo.filepath, "-ss",
       formatSeconds zeroBitrateVideo.start, "-t",
       formatSeconds (zeroBitrateVideo.«end» - zeroBitrateVideo.start),
       "-vb", "0"] :=
  commandLine_always_passes_bitrate zeroBitrateVideo "out.mp4" rfl

/-- C4: for every Video (with the non-negative duration every probe-built
video has) and every duration t, SetStart(t) sets start to
`max(0, min(t, duration))`, and end becomes the larger of the old end and the
clamped value — i.e. end is raised to the clamped value exactly when the
clamped value exceeds it. -/
theorem setStart_clamps_and_raises_end (v : Video) (t : Int)
    (hdur : 0 ≤ v.duration) :
    (v.setStart t).start = max 0 (min t v.duration) ∧
    (v.setStart t).«end» = max v.«end» (max 0 (min t v.duration)) := by
  unfold Video.setStart Video.clampToDuration
  dsimp only
  split_ifs <;> constructor <;> dsimp only <;> omega

/-- Witness for C4 at a concrete video and an out-of-range start. -/
theorem setStart_clamps_and_raises_end_witness :
    (sampleVideo.setStart 70000000000).start =
      max 0 (min 70000000000 sampleVideo.duration) ∧
    (sampleVideo.setStart 70000000000).«end» =
      max sampleVideo.«end» (max 0 (min 70000000000 sampleVideo.duration)) :=
  setStart_clamps_and_raises_end sampleVideo 70000000000 (by decide)

/-- C5: for every Video and all durations start > end, Trim(start, end)
leaves the entire Video state unchanged (silent no-op, no error). -/
theorem trim_inverted_range_noop (v : Video) (start «end» : Int)
    (h : «end» < start) : v.trim start «end» = v := by
  unfold Video.trim
  rw [if_neg (by omega)]

/-- Witness for C5 at a concrete inverted range. -/
theorem trim_inverted_range_noop_witness :
    sampleVideo.trim 20000000000 10000000000 = sampleVideo :=
  trim_inverted_range_noop sampleVideo 20000000000 10000000000 (by decide)

/-- C6: during Load, when the selected stream carries a rotation tag r, width
and height are swapped exactly when r / 90 (Go truncated integer division)
is odd. -/
theorem load_rotation_swap (path : String) (desc : Description) (s : Stream)
    (r : Int) (v : Video) (hsel : selectStream desc.streams = some s)
    (hrot : s.rotation = some r) (hload : load path desc = some v) :
    (v.width, v.height) =
      if Int.tmod (Int.tdiv r 90) 2 ≠ 0 then (s.height, s.width)
      else (s.width, s.height) := by
  unfold load at hload
  split at hload
  · exact absurd hload (by simp)
  · rw [hsel] at hload
    simp only [hrot, Option.some.injEq] at hload
    subst hload
    dsimp only
    by_cases hodd : Int.tmod (Int.tdiv r 90) 2 = 0
    · rw [if_neg (by simp [hodd]), if_neg (by simp [hodd])]
    · rw [if_pos (by simp [hodd]), if_pos (by simp [hodd])]

/-- Witness for C6: rotation 90 on reported dimensions 1080x1920 yields a
descriptor with width 1920 and height 1080. -/
theorem load_rotation_swap_witness :
    (rotatedVideo.width, rotatedVideo.height) =
      ((1920 : Int), (1080 : Int)) := by
  have h := load_rotation_swap "in.mp4" rotatedDesc
    { width := 1080, height := 1920, rotation := some 90 } 90 rotatedVideo
    (by decide) rfl (by decide)
  exact h.trans (by decide)

/-- Counterexample to C7: with a failing manifest write (`createFails`) and a
succeeding external invocation, ConcatenateWithStreams returns no error at
all — the manifest-write failure is silently ignored, not surfaced as a
ManifestWriteError. -/
theorem manifest_error_silently_ignored :
    sampleClip.concatenateWithStreams "out.mp4" true false emptyFS =
      some (none, { manifest := none }) := by decide

/-- C7 amended: ConcatenateWithStreams discards the result of the manifest
write entirely; for every clip with a non-empty member list the returned
error is ExecutionFailed exactly when the external process exits non-zero,
regardless of whether the manifest write failed. -/
theorem concatenate_error_iff_exec_fails (c : Clip) (output : String)
    (createFails execFails : Bool) (fs : FS) (p0 : String)
    (rest : List String) (hne : c.videosPath = p0 :: rest) :
    (c.concatenateWithStreams output createFails execFails fs).map Prod.fst =
      some (if execFails then some ConcatError.executionFailed else none) := by
  have hcl : c.commandLine output =
      some (["ffmpeg", "-y", "-f", "concat", "-i", c.concatListCache,
             "-c", "copy"] ++
        ["-fflags", "+genpts", join (dir p0) output]) := by
    unfold Clip.commandLine
    rw [hne]
  unfold Clip.concatenateWithStreams
  rw [hcl]
  rfl

/-- Witness for the amended C7 at a concrete clip with a failing execution. -/
theorem concatenate_error_iff_exec_fails_witness :
    (sampleClip.concatenateWithStreams "out.mp4" false true emptyFS).map
        Prod.fst =
      some (if true then some ConcatError.executionFailed else none) :=
  concatenate_error_iff_exec_fails sampleClip "out.mp4" false true emptyFS
    "/a/b.mp4" [] rfl

/-- C8: for every non-empty member list accepted by NewClip, the manifest
write produces exactly one `file '<basename>'` line per member, in list
order, at the manifest path in the directory of the first member; and after
ConcatenateWithStreams returns — whether the external invocation succeeds or
fails — the manifest file is absent. -/
theorem manifest_content_and_scoped_cleanup
    (videoPath : List String) (p0 : String) (rest : List String)
    (statOk : String → Bool) (c : Clip) (output : String) (execFails : Bool)
    (fs : FS) (hpath : videoPath = p0 :: rest)
    (hclip : newClip true statOk videoPath = some (.ok c)) :
    c.saveConcatenateList false fs =
      .ok { manifest := some (join (dir p0) "concat.txt",
        videoPath.map (fun video => "file \x27" ++ base video ++ "\x27")) } ∧
    (c.concatenateWithStreams output false execFails fs).map
      (fun r => r.2.manifest) = some none := by
  subst hpath
  unfold newClip at hclip
  dsimp only [Bool.not_true] at hclip
  rw [if_neg (by simp)] at hclip
  split at hclip
  · simp at hclip
  · simp only [Option.some.injEq, Except.ok.injEq] at hclip
    subst hclip
    constructor
    · unfold Clip.saveConcatenateList
      rfl
    · unfold Clip.concatenateWithStreams Clip.commandLine
      unfold Clip.saveConcatenateList Clip.deleteConcatenateList
      simp

/-- Witness for C8 at a concrete two-member clip with a failing execution. -/
theorem manifest_content_and_scoped_cleanup_witness :
    twoMemberClip.saveConcatenateList false emptyFS =
      .ok { manifest := some (join (dir "/a/b.mp4") "concat.txt",
        (["/a/b.mp4", "/a/c.mp4"]).map
          (fun video => "file \x27" ++ base video ++ "\x27")) } ∧
    (twoMemberClip.concatenateWithStreams "out.mp4" false true emptyFS).map
      (fun r => r.2.manifest) = some none :=
  manifest_content_and_scoped_cleanup ["/a/b.mp4", "/a/c.mp4"] "/a/b.mp4"
    ["/a/c.mp4"] (fun _ => true) twoMemberClip "out.mp4" true emptyFS rfl
    rfl

/-- Counterexample to C9: for the clip whose first member is /a/b/c.mp4 and
outputName "d/out.mp4", the compiled output path is /a/b/d/out.mp4 — the
directory component of outputName is kept (nested under the first member's
directory), and the output is not directly in /a/b as the claim states. -/
theorem clip_output_dir_counterexample :
    nestedClip.commandLine "d/out.mp4" =
      some ["ffmpeg", "-y", "-f", "concat", "-i", "/a/b/concat.txt",
            "-c", "copy", "-fflags", "+genpts", "/a/b/d/out.mp4"] ∧
    dir "/a/b/d/out.mp4" ≠ dir "/a/b/c.mp4" := by decide

/-- C9 amended: the output path in the compiled concatenation command is
`join(dir(first member), outputName)` — outputName is appended beneath the
first member's directory, so a directory component of outputName is
preserved under that directory, not discarded. -/
theorem clip_output_path_joined (c : Clip) (output p0 : String)
    (rest : List String) (hne : c.videosPath = p0 :: rest) :
    ∃ line, c.commandLine output = some line ∧
      line.getLast? = some (join (dir p0) output) := by
  unfold Clip.commandLine
  rw [hne]
  exact ⟨_, rfl, rfl⟩

/-- Witness for the amended C9 at a concrete clip and a nested output name. -/
theorem clip_output_path_joined_witness :
    ∃ line, nestedClip.commandLine "d/out.mp4" = some line ∧
      line.getLast? = some (join (dir "/a/b/c.mp4") "d/out.mp4") :=
  clip_output_path_joined nestedClip "d/out.mp4" "/a/b/c.mp4" [] rfl

/-- C10: NewClip is only total on non-empty path lists — with the probe tool
present, an empty list reaches the unconditional read of videoPath[0] and
panics (none) instead of returning an error value, while any non-empty list
returns a value; Clip.CommandLine likewise panics on an empty member list. -/
theorem newClip_requires_nonempty (statOk : String → Bool)
    (ps : List String) (out : String) (c : Clip) :
    newClip true statOk [] = none ∧
    (ps ≠ [] → (newClip true statOk ps).isSome = true) ∧
    (c.videosPath = [] → c.commandLine out = none) := by
  refine ⟨?_, ?_, ?_⟩
  · unfold newClip
    rfl
  · intro hne
    unfold newClip
    rw [if_neg (by simp)]
    cases hps : ps.find? (fun p => !statOk p) with
    | some p => rfl
    | none =>
      cases ps with
      | nil => exact absurd rfl hne
      | cons p0 rest => rfl
  · intro hempty
    unfold Clip.commandLine
    rw [hempty]

/-- Witness for C10: a one-member list is accepted; a clip with an empty
member list makes CommandLine panic. -/
theorem newClip_requires_nonempty_witness :
    (newClip true (fun _ => true) ["/a/b.mp4"]).isSome = true ∧
    Clip.commandLine { videosPath := [], concatListCache := "x" } "out.mp4" =
      none := by
  have h := newClip_requires_nonempty (fun _ => true) ["/a/b.mp4"] "out.mp4"
    { videosPath := [], concatListCache := "x" }
  exact ⟨h.2.1 (by decide), h.2.2 rfl⟩

end Cinema
